import Mathlib

/-!
Verification of the task-location and tag-verification engine of the kanban
page object (src/pages/KanbanPage.js).

The DOM is shallowly embedded as a tree of elements carrying a tag name,
attributes, own text, an optional bounding box and children.  Elements are
addressed by root-relative paths (lists of child indices).  The Playwright
selector forms actually used by the source are embedded as a small selector
language, and each method of the page object is translated to a total Lean
function over this model; operations that can throw in the source are
modelled with Except, and the source's try/catch structure is mirrored by
explicit match/catch in the translations.
-/

namespace Kanban

/-- Bounding box of an element, as returned by boundingBox(). -/
structure BBox where
  x : Int
  y : Int
  width : Int
  height : Int
deriving Repr, DecidableEq

/-- A DOM element: tag name, attributes, the element's own text, an optional
bounding box (none when the element is detached or invisible), and children. -/
inductive Dom where
  | node (tag : String) (attrs : List (String × String)) (ownText : String)
         (bbox : Option BBox) (children : List Dom)

def Dom.tag : Dom → String
  | .node t _ _ _ _ => t

def Dom.attrs : Dom → List (String × String)
  | .node _ a _ _ _ => a

def Dom.ownText : Dom → String
  | .node _ _ s _ _ => s

def Dom.bbox : Dom → Option BBox
  | .node _ _ _ b _ => b

def Dom.children : Dom → List Dom
  | .node _ _ _ _ cs => cs

/-- Attribute lookup by name. -/
def Dom.attr (d : Dom) (name : String) : Option String :=
  (d.attrs.find? (fun kv => kv.1 == name)).map (·.2)

mutual
/-- textContent(): the element's own text followed by the text of all
descendants, in document order. -/
def Dom.textContent : Dom → String
  | .node _ _ t _ cs => t ++ Dom.textContentList cs

def Dom.textContentList : List Dom → String
  | [] => ""
  | c :: cs => c.textContent ++ Dom.textContentList cs
end

mutual
/-- Paths of all strict descendants of an element, in document (pre-)order. -/
def strictPaths : Dom → List (List Nat)
  | .node _ _ _ _ cs => strictPathsList 0 cs

def strictPathsList : Nat → List Dom → List (List Nat)
  | _, [] => []
  | i, c :: cs => ([i] :: (strictPaths c).map (fun p => i :: p)) ++ strictPathsList (i + 1) cs
end

/-- Resolve a root-relative path to the subtree it addresses. -/
def subtreeAt : Dom → List Nat → Option Dom
  | d, [] => some d
  | d, i :: p =>
    match d.children.get? i with
    | some c => subtreeAt c p
    | none => none

/-- Absolute paths of all strict descendants of the element at base. -/
def descPaths (doc : Dom) (base : List Nat) : List (List Nat) :=
  match subtreeAt doc base with
  | some t => (strictPaths t).map (fun p => base ++ p)
  | none => []

/-- Text content of the element at a path (empty for an invalid path). -/
def elText (doc : Dom) (p : List Nat) : String :=
  match subtreeAt doc p with
  | some t => t.textContent
  | none => ""

/-- Bounding box of the element at a path. -/
def elBBox (doc : Dom) (p : List Nat) : Option BBox :=
  match subtreeAt doc p with
  | some t => t.bbox
  | none => none

/-- ASCII lowering of one character (the board vocabulary is ASCII). -/
def lowerChar (c : Char) : Char :=
  if 65 ≤ c.toNat ∧ c.toNat ≤ 90 then Char.ofNat (c.toNat + 32) else c

/-- s.toLowerCase(). -/
def lowerStr (s : String) : String := ⟨s.data.map lowerChar⟩

def isWsChar (c : Char) : Bool := c == ' ' || c == '\t' || c == '\n' || c == '\r'

/-- s.trim(): strip leading and trailing whitespace. -/
def trimStr (s : String) : String :=
  ⟨((s.data.dropWhile isWsChar).reverse.dropWhile isWsChar).reverse⟩

/-- Emptiness of a string. -/
def strIsEmpty (s : String) : Bool := s.data.isEmpty

/-- JavaScript's String.prototype.includes, on character lists. -/
def subList : List Char → List Char → Bool
  | n, [] => n.isEmpty
  | n, c :: t => n.isPrefixOf (c :: t) || subList n t

/-- hay.includes(needle), case-sensitive. -/
def includesStr (hay needle : String) : Bool :=
  subList needle.data hay.data

/-- hay.toLowerCase().includes(needle.toLowerCase()). -/
def ciIncludes (hay needle : String) : Bool :=
  includesStr (lowerStr hay) (lowerStr needle)

/-- The selector forms used by KanbanPage.js. -/
inductive Selector where
  /-- quoted text selector, e.g. text="Implement user authentication":
  exact (whitespace-trimmed, case-sensitive) match of the element's text. -/
  | textIs (s : String)
  /-- substring text selector (text*="..." and unquoted text=...):
  case-insensitive substring match against the element's text. -/
  | textHas (s : String)
  /-- attribute substring selector, e.g. [class*="tag"]. -/
  | attrHas (name v : String)
  /-- tag:has-text("..."), e.g. h2:has-text("To Do"):
  tag match plus case-insensitive substring of the element's text. -/
  | tagHasText (tag s : String)
  /-- the universal selector. -/
  | star
deriving Repr, DecidableEq

def matchesSel (e : Dom) : Selector → Bool
  | .textIs s => trimStr e.textContent == s
  | .textHas s => ciIncludes e.textContent s
  | .attrHas n v =>
    match e.attr n with
    | some a => includesStr a v
    | none => false
  | .tagHasText t s => e.tag == t && ciIncludes e.textContent s
  | .star => true

def matchesSelAt (doc : Dom) (p : List Nat) (sel : Selector) : Bool :=
  match subtreeAt doc p with
  | some e => matchesSel e sel
  | none => false

/-- locator(sel).all() scoped at base: matching strict descendants, in
document order. -/
def queryAllFrom (doc : Dom) (base : List Nat) (sel : Selector) : List (List Nat) :=
  (descPaths doc base).filter (fun p => matchesSelAt doc p sel)

/-- All proper ancestors of a path (the XPath ancestor axis), outermost
first. -/
def ancestorPaths : List Nat → List (List Nat)
  | [] => []
  | i :: p => [] :: (ancestorPaths p).map (fun q => i :: q)

/-- Selector of the getter toDoColumn. -/
def toDoColumnSel : Selector := .tagHasText "h2" "To Do"

/-- Selector of the getter inProgressColumn. -/
def inProgressColumnSel : Selector := .tagHasText "h2" "In Progress"

/-- Selector of the getter doneColumn. -/
def doneColumnSel : Selector := .tagHasText "h2" "Done"

/-- getColumnLocator(columnName): switch on columnName.toLowerCase();
the default branch throws, modelled by the error value. -/
def getColumnLocator (columnName : String) : Except String Selector :=
  match lowerStr columnName with
  | "to do" | "todo" => .ok toDoColumnSel
  | "in progress" | "inprogress" => .ok inProgressColumnSel
  | "done" => .ok doneColumnSel
  | _ => .error ("Unknown column name: " ++ columnName)

/-- Approach 1 of isElementInColumn: element.locator(
xpath=ancestor::*[contains(., columnName)]) has a match, i.e. the text of
some proper ancestor contains the column name (case-sensitively, as XPath
contains does). -/
def approach1 (doc : Dom) (el : List Nat) (columnName : String) : Except Unit Bool :=
  .ok ((ancestorPaths el).any (fun a => includesStr (elText doc a) columnName))

/-- Approach 2 of isElementInColumn references the identifier
columnSelector, which is not defined anywhere in the source file; evaluating
the approach therefore throws a ReferenceError before any containment logic
runs.  Modelled by the error value. -/
def approach2 : Except Unit Bool := .error ()

/-- Approach 3 of isElementInColumn likewise dereferences the undefined
identifier columnSelector on its first line and always throws. -/
def approach3 : Except Unit Bool := .error ()

/-- geometricCheck is the bounding-box comparison written in approach 3 of
the source (lines 172-174).  It is unreachable there, because the approach
throws on the undefined columnSelector before reaching it. -/
def geometricCheck (columnRect elementRect : BBox) : Bool :=
  (elementRect.y > columnRect.y) &&
  (elementRect.x ≥ columnRect.x - 50) &&
  (elementRect.x ≤ columnRect.x + columnRect.width + 50)

/-- The for-loop of isElementInColumn over the approaches: each approach
runs under its own try/catch; a thrown approach is skipped, a true result
returns true immediately, and the loop falls through to false. -/
def runApproaches : List (Except Unit Bool) → Bool
  | [] => false
  | Except.ok true :: _ => true
  | Except.ok false :: rest => runApproaches rest
  | Except.error _ :: rest => runApproaches rest

/-- The approaches array of isElementInColumn. -/
def approaches (doc : Dom) (el : List Nat) (columnName : String) : List (Except Unit Bool) :=
  [approach1 doc el columnName, approach2, approach3]

/-- isElementInColumn(element, columnName): getColumnLocator runs inside the
outer try, so its throw for an unknown column is caught and yields false;
otherwise the approaches are tried in order. -/
def isElementInColumn (doc : Dom) (el : List Nat) (columnName : String) : Bool :=
  match getColumnLocator columnName with
  | .error _ => false
  | .ok _ => runApproaches (approaches doc el columnName)

/-- The taskSelectors array of findTaskInColumn. -/
def taskSelectors (taskName : String) : List Selector :=
  [Selector.textIs taskName, Selector.textHas taskName,
   Selector.attrHas "data-testid" (lowerStr taskName),
   Selector.attrHas "class" (lowerStr taskName)]

/-- The candidate test of the first and last search strategies: non-null,
non-empty text that contains the task name case-insensitively, and the
element passes the Containment Classifier. -/
def candidateOk (doc : Dom) (taskName columnName : String) (el : List Nat) : Bool :=
  !(strIsEmpty (elText doc el)) && ciIncludes (elText doc el) taskName &&
    isElementInColumn doc el columnName

/-- Strategies 1-2 of findTaskInColumn (lines 72-98): loop over the four
task selectors, and within each selector's matches return the first element
whose text matches and which the classifier confirms. -/
def strat1 (doc : Dom) (taskName columnName : String) : Option (List Nat) :=
  (taskSelectors taskName).findSome? (fun sel =>
    (queryAllFrom doc [] sel).find? (candidateOk doc taskName columnName))

/-- Strategy 3 of findTaskInColumn (lines 100-119): resolve the column
locator (its throw for an unknown name propagates to the enclosing catch),
wait for it (a missing column heading times out, also propagating), then
return the first descendant of the column locator whose text contains the
task name.  Note that this strategy does not consult isElementInColumn. -/
def strat3 (doc : Dom) (taskName columnName : String) : Except String (Option (List Nat)) :=
  match getColumnLocator columnName with
  | .error e => .error e
  | .ok colSel =>
    if (queryAllFrom doc [] colSel).isEmpty then
      .error ("Timeout waiting for column \"" ++ columnName ++ "\"")
    else
      .ok (((queryAllFrom doc [] colSel).flatMap (fun b => queryAllFrom doc b Selector.star)).find?
        (fun el => !(strIsEmpty (elText doc el)) && ciIncludes (elText doc el) taskName))

/-- Strategy 4 of findTaskInColumn (lines 121-134): enumerate every element
of the page and return the first whose text matches and which the
classifier confirms. -/
def strat4 (doc : Dom) (taskName columnName : String) : Option (List Nat) :=
  (queryAllFrom doc [] Selector.star).find? (candidateOk doc taskName columnName)

/-- Result shape of findTaskInColumn. -/
structure FindResult where
  found : Bool
  card : Option (List Nat) := none
  title : Option String := none
  index : Option Nat := none
  error : Option String := none
deriving Repr, DecidableEq

/-- findTaskInColumn(taskName, columnName): the strategies in order; the
outer try/catch turns the errors of strategy 3 (unknown column, column
heading timeout) into a found=false result carrying the error message. -/
def findTaskInColumn (doc : Dom) (taskName columnName : String) : FindResult :=
  match strat1 doc taskName columnName with
  | some el => { found := true, card := some el, title := some taskName, index := some 0 }
  | none =>
    match strat3 doc taskName columnName with
    | .error e => { found := false, error := some e }
    | .ok (some el) => { found := true, card := some el, title := some taskName, index := some 0 }
    | .ok none =>
      match strat4 doc taskName columnName with
      | some el => { found := true, card := some el, title := some taskName }
      | none => { found := false }

/-- The tagSelectors array of getTaskTags.  The unquoted text=... selectors
are case-insensitive substring matches. -/
def tagSelectors : List Selector :=
  [Selector.textHas "Feature", Selector.textHas "High Priority",
   Selector.textHas "Bug", Selector.textHas "Design",
   Selector.attrHas "class" "tag", Selector.attrHas "class" "badge",
   Selector.attrHas "class" "label",
   Selector.tagHasText "span" "Feature", Selector.tagHasText "span" "High Priority",
   Selector.tagHasText "span" "Bug", Selector.tagHasText "span" "Design"]

/-- The inner push of getTaskTags: keep a tag only when its trimmed text is
non-empty and not already collected (tags.includes on the trimmed text). -/
def addTag (acc : List String) (raw : String) : List String :=
  if trimStr raw ≠ "" ∧ trimStr raw ∉ acc then acc ++ [trimStr raw] else acc

/-- The double loop of getTaskTags over tag selectors and their matches,
scoped at base, extending an accumulator. -/
def collectOver (doc : Dom) (base : List Nat) (sels : List Selector)
    (acc : List String) : List String :=
  sels.foldl (fun a sel =>
    (queryAllFrom doc base sel).foldl (fun a2 el => addTag a2 (elText doc el)) a) acc

/-- getTaskTags(taskCard): collect tags within the card, then also within
its immediate parent (taskCard.locator(xpath=..)) when the parent's text is
non-empty and contains the card's own text content.  The root has no
parent; the parent lookup then fails and is caught, keeping the card-only
tags. -/
def getTaskTags (doc : Dom) (card : List Nat) : List String :=
  if card = [] then
    collectOver doc card tagSelectors []
  else if !(strIsEmpty (elText doc card.dropLast)) &&
          includesStr (elText doc card.dropLast) (elText doc card) then
    collectOver doc card.dropLast tagSelectors (collectOver doc card tagSelectors [])
  else
    collectOver doc card tagSelectors []

/-- The expected-tag comparison of verifyTaskInColumn: every expected tag is
satisfied by some actual tag containing it case-insensitively. -/
def tagsMatchCheck (expectedTags actualTags : List String) : Bool :=
  expectedTags.all (fun e => actualTags.any (fun a => ciIncludes a e))

/-- Result shape of verifyTaskInColumn.  Fields absent from a returned
object in the source are modelled as none. -/
structure VerificationResult where
  found : Bool
  title : Option String := none
  actualTags : Option (List String) := none
  tagsMatch : Option Bool := none
  column : Option String := none
  error : Option String := none
deriving Repr, DecidableEq

/-- verifyTaskInColumn(taskName, columnName, expectedTags), instrumented: the
second component records the card of every getTaskTags invocation made by
the call.  When the task is not found the method returns immediately with a
diagnostic error and performs no tag extraction. -/
def verifyTaskInColumnT (doc : Dom) (taskName columnName : String)
    (expectedTags : List String) : VerificationResult × List (List Nat) :=
  let taskResult := findTaskInColumn doc taskName columnName
  if taskResult.found then
    let card := taskResult.card.getD []
    let actualTags := getTaskTags doc card
    let tagsMatch := if !expectedTags.isEmpty then tagsMatchCheck expectedTags actualTags else true
    ({ found := true, title := taskResult.title, actualTags := some actualTags,
       tagsMatch := some tagsMatch, column := some columnName, error := none }, [card])
  else
    ({ found := false,
       error := some ("Task \"" ++ taskName ++ "\" not found in column \"" ++ columnName ++ "\"") },
     [])

/-- verifyTaskInColumn as the caller sees it. -/
def verifyTaskInColumn (doc : Dom) (taskName columnName : String)
    (expectedTags : List String) : VerificationResult :=
  (verifyTaskInColumnT doc taskName columnName expectedTags).1

/-- The knownTasks array of getAllTasksInColumn. -/
def knownTasks : List String :=
  ["Implement user authentication", "Fix navigation bug", "Design system updates",
   "Push notification system", "Offline mode", "App icon design"]

/-- An entry of the list returned by getAllTasksInColumn / getAllTasks. -/
structure TaskInfo where
  title : String
  tags : List String
  index : Nat
  column : Option String := none
deriving Repr, DecidableEq

/-- The loop body of getAllTasksInColumn for one known task name: take the
first match of text="taskName" within the column locator, and if the
classifier confirms it, push it with its tags. -/
def addKnownTask (doc : Dom) (colSel : Selector) (columnName : String)
    (tasks : List TaskInfo) (taskName : String) : List TaskInfo :=
  match ((queryAllFrom doc [] colSel).flatMap
      (fun b => queryAllFrom doc b (Selector.textIs taskName))).head? with
  | some el =>
    if isElementInColumn doc el columnName then
      tasks ++ [{ title := taskName, tags := getTaskTags doc el, index := tasks.length }]
    else tasks
  | none => tasks

/-- getAllTasksInColumn(columnName): an unknown column name or a column
heading that never appears is caught and yields the empty list; otherwise
the known task names are probed in order. -/
def getAllTasksInColumn (doc : Dom) (columnName : String) : List TaskInfo :=
  match getColumnLocator columnName with
  | .error _ => []
  | .ok colSel =>
    if (queryAllFrom doc [] colSel).isEmpty then []
    else knownTasks.foldl (addKnownTask doc colSel columnName) []

/-- getAllTasks(): concatenate the three columns, stamping each task with
its column name. -/
def getAllTasks (doc : Dom) : List TaskInfo :=
  ["To Do", "In Progress", "Done"].foldl
    (fun acc columnName =>
      acc ++ (getAllTasksInColumn doc columnName).map
        (fun t => { t with column := some columnName })) []

/-- A small board: a board container holding a To Do column (heading plus a
card with two tag spans) and a Done column (heading plus a card). -/
def demoDoc : Dom :=
  .node "html" [] "" none [
    .node "div" [("class", "board")] "" none [
      .node "div" [("class", "column")] "" none [
        .node "h2" [] "To Do" (some { x := 0, y := 0, width := 200, height := 30 }) [],
        .node "div" [("class", "card")] "Implement user authentication"
            (some { x := 10, y := 40, width := 180, height := 80 }) [
          .node "span" [] "Feature" none [],
          .node "span" [] "High Priority" none []]],
      .node "div" [("class", "column")] "" none [
        .node "h2" [] "Done" (some { x := 220, y := 0, width := 200, height := 30 }) [],
        .node "div" [("class", "card")] "Offline mode"
            (some { x := 230, y := 40, width := 180, height := 80 }) []]]]

/-- A board whose To Do heading is spelled in upper case, with a task element
nested inside the heading element.  The h2 still matches the column locator
(has-text is case-insensitive), but no ancestor text contains the string
To Do case-sensitively, so the ancestor-text heuristic fails for every
element. -/
def c2doc : Dom :=
  .node "html" [] "" none [
    .node "section" [] "" none [
      .node "h2" [] "TO DO" none [
        .node "div" [] "Offline mode" none []]]]

/-- A board with an upper-case heading and a task element that is a sibling
of the heading, positioned directly below it: the ancestor-text and
DOM-containment heuristics fail, and only the geometric comparison could
classify the element as belonging to the column. -/
def c3doc : Dom :=
  .node "html" [] "" none [
    .node "h2" [] "TO DO" (some { x := 0, y := 0, width := 200, height := 30 }) [],
    .node "div" [] "Offline mode" (some { x := 10, y := 50, width := 100, height := 20 }) []]

/-- A column whose container directly holds two task cards with disjoint
tags: Fix navigation bug carries the tag Bug, Offline mode carries the tag
Feature. -/
def c5doc : Dom :=
  .node "html" [] "" none [
    .node "div" [("class", "column")] "" none [
      .node "h2" [] "To Do" none [],
      .node "div" [("class", "card")] "Fix navigation bug" none [
        .node "span" [] "Bug" none []],
      .node "div" [("class", "card")] "Offline mode" none [
        .node "span" [] "Feature" none []]]]

/-- A board whose task element is nested inside the column heading element,
so that the column-scoped text="..." probe of getAllTasksInColumn can find
it. -/
def c10doc : Dom :=
  .node "html" [] "" none [
    .node "h2" [] "To Do" none [
      .node "div" [] "Fix navigation bug" none []]]

/-- The trimmed text of every strict descendant of an element. -/
def trimmedTexts (doc : Dom) (base : List Nat) : List String :=
  (descPaths doc base).map (fun p => trimStr (elText doc p))

/-! Helper lemmas. -/

theorem findSome?_of_all_none {α β : Type} (f : α → Option β) :
    ∀ l : List α, (∀ a ∈ l, f a = none) → l.findSome? f = none := by
  intro l
  induction l with
  | nil => intro _; rfl
  | cons x xs ih =>
    intro h
    rw [List.findSome?_cons, h x (List.mem_cons_self x xs)]
    exact ih fun a ha => h a (List.mem_cons_of_mem _ ha)

theorem exists_of_findSome?_some {α β : Type} (f : α → Option β) :
    ∀ (l : List α) (b : β), l.findSome? f = some b → ∃ a ∈ l, f a = some b := by
  intro l
  induction l with
  | nil => intro b h; simp [List.findSome?] at h
  | cons x xs ih =>
    intro b h
    rw [List.findSome?_cons] at h
    cases hx : f x with
    | some v =>
      rw [hx] at h
      have hv : some v = some b := h
      exact ⟨x, List.mem_cons_self x xs, by rw [hx]; exact hv⟩
    | none =>
      rw [hx] at h
      have h' : List.findSome? f xs = some b := h
      obtain ⟨a, ha, hfa⟩ := ih b h'
      exact ⟨a, List.mem_cons_of_mem _ ha, hfa⟩

theorem mem_addTag {acc : List String} {raw x : String} (h : x ∈ addTag acc raw) :
    x ∈ acc ∨ x = trimStr raw := by
  unfold addTag at h
  split at h
  · rcases List.mem_append.mp h with h' | h'
    · exact Or.inl h'
    · right; simpa using h'
  · exact Or.inl h

theorem nodup_snoc {α : Type} : ∀ (l : List α) (a : α), a ∉ l → l.Nodup → (l ++ [a]).Nodup := by
  intro l
  induction l with
  | nil => intro a _ _; simp
  | cons x xs ih =>
    intro a ha hx
    rcases List.nodup_cons.mp hx with ⟨hx1, hx2⟩
    refine List.nodup_cons.mpr ⟨?_, ih a (fun h => ha (List.mem_cons_of_mem _ h)) hx2⟩
    intro hmem
    rcases List.mem_append.mp hmem with h | h
    · exact hx1 h
    · simp only [List.mem_singleton] at h
      subst h
      exact ha (List.mem_cons_self _ _)

theorem addTag_nodup {acc : List String} (raw : String) (h : acc.Nodup) :
    (addTag acc raw).Nodup := by
  unfold addTag
  split
  case isTrue hc => exact nodup_snoc acc (trimStr raw) hc.2 h
  case isFalse _ => exact h

theorem mem_foldl_addTag (doc : Dom) :
    ∀ (els : List (List Nat)) (acc : List String) (x : String),
    x ∈ els.foldl (fun a el => addTag a (elText doc el)) acc →
    x ∈ acc ∨ ∃ el ∈ els, x = trimStr (elText doc el) := by
  intro els
  induction els with
  | nil => intro acc x h; exact Or.inl h
  | cons e es ih =>
    intro acc x h
    rw [List.foldl_cons] at h
    rcases ih _ _ h with h' | ⟨el, hel, hx⟩
    · rcases mem_addTag h' with h'' | h''
      · exact Or.inl h''
      · exact Or.inr ⟨e, List.mem_cons_self e es, h''⟩
    · exact Or.inr ⟨el, List.mem_cons_of_mem _ hel, hx⟩

theorem nodup_foldl_addTag (doc : Dom) :
    ∀ (els : List (List Nat)) (acc : List String), acc.Nodup →
    (els.foldl (fun a el => addTag a (elText doc el)) acc).Nodup := by
  intro els
  induction els with
  | nil => intro acc h; exact h
  | cons e es ih =>
    intro acc h
    rw [List.foldl_cons]
    exact ih _ (addTag_nodup _ h)

theorem mem_queryAllFrom {doc : Dom} {base el : List Nat} {sel : Selector}
    (h : el ∈ queryAllFrom doc base sel) : el ∈ descPaths doc base := by
  unfold queryAllFrom at h
  exact List.mem_of_mem_filter h

theorem mem_collectOver (doc : Dom) (base : List Nat) :
    ∀ (sels : List Selector) (acc : List String) (x : String),
    x ∈ collectOver doc base sels acc →
    x ∈ acc ∨ ∃ el ∈ descPaths doc base, x = trimStr (elText doc el) := by
  intro sels
  induction sels with
  | nil => intro acc x h; exact Or.inl h
  | cons s ss ih =>
    intro acc x h
    unfold collectOver at h ih
    rw [List.foldl_cons] at h
    rcases ih _ _ h with h' | h'
    · rcases mem_foldl_addTag doc _ _ _ h' with h'' | ⟨el, hel, hx⟩
      · exact Or.inl h''
      · exact Or.inr ⟨el, mem_queryAllFrom hel, hx⟩
    · exact Or.inr h'

theorem nodup_collectOver (doc : Dom) (base : List Nat) :
    ∀ (sels : List Selector) (acc : List String), acc.Nodup →
    (collectOver doc base sels acc).Nodup := by
  intro sels
  induction sels with
  | nil => intro acc h; exact h
  | cons s ss ih =>
    intro acc h
    unfold collectOver at ih ⊢
    rw [List.foldl_cons]
    exact ih _ (nodup_foldl_addTag doc _ _ h)

theorem mem_getTaskTags {doc : Dom} {card : List Nat} {x : String}
    (h : x ∈ getTaskTags doc card) :
    ∃ el, (el ∈ descPaths doc card ∨ el ∈ descPaths doc card.dropLast) ∧
      x = trimStr (elText doc el) := by
  unfold getTaskTags at h
  split at h
  · rcases mem_collectOver doc card _ _ _ h with h' | ⟨el, hel, hx⟩
    · cases h'
    · exact ⟨el, Or.inl hel, hx⟩
  · split at h
    · rcases mem_collectOver doc card.dropLast _ _ _ h with h' | ⟨el, hel, hx⟩
      · rcases mem_collectOver doc card _ _ _ h' with h'' | ⟨el, hel, hx⟩
        · cases h''
        · exact ⟨el, Or.inl hel, hx⟩
      · exact ⟨el, Or.inr hel, hx⟩
    · rcases mem_collectOver doc card _ _ _ h with h' | ⟨el, hel, hx⟩
      · cases h'
      · exact ⟨el, Or.inl hel, hx⟩

theorem nodup_getTaskTags (doc : Dom) (card : List Nat) : (getTaskTags doc card).Nodup := by
  unfold getTaskTags
  split
  · exact nodup_collectOver doc card _ _ List.nodup_nil
  · split
    · exact nodup_collectOver doc card.dropLast _ _
        (nodup_collectOver doc card _ _ List.nodup_nil)
    · exact nodup_collectOver doc card _ _ List.nodup_nil

theorem verifyT_found (doc : Dom) (t c : String) (e : List String)
    (h : (findTaskInColumn doc t c).found = true) :
    verifyTaskInColumnT doc t c e =
      ({ found := true, title := (findTaskInColumn doc t c).title,
         actualTags := some (getTaskTags doc ((findTaskInColumn doc t c).card.getD [])),
         tagsMatch := some (if !e.isEmpty then
           tagsMatchCheck e (getTaskTags doc ((findTaskInColumn doc t c).card.getD []))
           else true),
         column := some c, error := none },
       [(findTaskInColumn doc t c).card.getD []]) := by
  simp only [verifyTaskInColumnT, h, if_true]

theorem verifyT_not_found (doc : Dom) (t c : String) (e : List String)
    (h : (findTaskInColumn doc t c).found = false) :
    verifyTaskInColumnT doc t c e =
      ({ found := false,
         error := some ("Task \"" ++ t ++ "\" not found in column \"" ++ c ++ "\"") },
       []) := by
  simp only [verifyTaskInColumnT, h, Bool.false_eq_true, if_false]

theorem isElementInColumn_unknown {doc : Dom} {el : List Nat} {c err : String}
    (h : getColumnLocator c = Except.error err) : isElementInColumn doc el c = false := by
  simp [isElementInColumn, h]

theorem candidateOk_unknown {doc : Dom} {t c err : String}
    (h : getColumnLocator c = Except.error err) :
    ∀ el, candidateOk doc t c el = false := by
  intro el
  simp [candidateOk, isElementInColumn_unknown h]

theorem strat1_unknown {doc : Dom} {t c err : String}
    (h : getColumnLocator c = Except.error err) : strat1 doc t c = none := by
  unfold strat1
  apply findSome?_of_all_none
  intro sel _
  rw [List.find?_eq_none]
  intro el _
  simp [candidateOk_unknown h el]

theorem addKnownTask_titles (doc : Dom) (colSel : Selector) (columnName : String) :
    ∀ (names : List String) (acc : List TaskInfo),
    (∀ t ∈ acc, t.title ∈ knownTasks) → (∀ n ∈ names, n ∈ knownTasks) →
    ∀ t ∈ names.foldl (addKnownTask doc colSel columnName) acc, t.title ∈ knownTasks := by
  intro names
  induction names with
  | nil => intro acc hacc _ t ht; exact hacc t ht
  | cons n ns ih =>
    intro acc hacc hnames t ht
    rw [List.foldl_cons] at ht
    refine ih _ ?_ (fun m hm => hnames m (List.mem_cons_of_mem _ hm)) t ht
    intro u hu
    unfold addKnownTask at hu
    split at hu
    · split at hu
      · rcases List.mem_append.mp hu with h' | h'
        · exact hacc u h'
        · simp only [List.mem_singleton] at h'
          subst h'
          exact hnames n (List.mem_cons_self n ns)
      · exact hacc u hu
    · exact hacc u hu

theorem getAllTasksInColumn_titles (doc : Dom) (columnName : String) :
    ∀ t ∈ getAllTasksInColumn doc columnName, t.title ∈ knownTasks := by
  intro t ht
  unfold getAllTasksInColumn at ht
  split at ht
  · cases ht
  · split at ht
    · cases ht
    · exact addKnownTask_titles doc _ columnName knownTasks []
        (fun u hu => absurd hu (List.not_mem_nil u)) (fun n hn => hn) t ht

theorem getAllTasks_titles_aux (doc : Dom) :
    ∀ (cols : List String) (acc : List TaskInfo),
    (∀ t ∈ acc, t.title ∈ knownTasks) →
    ∀ t ∈ cols.foldl
      (fun acc columnName =>
        acc ++ (getAllTasksInColumn doc columnName).map
          (fun t => { t with column := some columnName })) acc,
    t.title ∈ knownTasks := by
  intro cols
  induction cols with
  | nil => intro acc hacc t ht; exact hacc t ht
  | cons c cs ih =>
    intro acc hacc t ht
    rw [List.foldl_cons] at ht
    refine ih _ ?_ t ht
    intro u hu
    rcases List.mem_append.mp hu with h' | h'
    · exact hacc u h'
    · rcases List.mem_map.mp h' with ⟨v, hv, hvu⟩
      have := getAllTasksInColumn_titles doc c v hv
      rw [← hvu]
      exact this

/-! Claim theorems. -/

/-- C1 counterexample: for the unknown column name Archived, getColumnLocator
does throw, but verifyTaskInColumn does not raise the error to its caller:
it returns a NotFound-style result with found=false and an error string,
because findTaskInColumn catches the throw of getColumnLocator. -/
theorem C1_counterexample :
    getColumnLocator "Archived" = Except.error ("Unknown column name: " ++ "Archived") ∧
    (verifyTaskInColumn demoDoc "Implement user authentication" "Archived" []).found = false ∧
    (verifyTaskInColumn demoDoc "Implement user authentication" "Archived" []).error =
      some "Task \"Implement user authentication\" not found in column \"Archived\"" :=
  ⟨rfl, by decide, by decide⟩

/-- C1 amended: for every column name on which getColumnLocator throws, the
throw is caught inside findTaskInColumn, and verifyTaskInColumn returns a
NotFound-style result (found=false with a diagnostic error string) instead
of raising a fatal configuration error. -/
theorem C1_unknown_column_not_found :
    ∀ (doc : Dom) (taskName columnName : String) (expectedTags : List String) (err : String),
    getColumnLocator columnName = Except.error err →
    verifyTaskInColumn doc taskName columnName expectedTags =
      { found := false,
        error := some ("Task \"" ++ taskName ++ "\" not found in column \"" ++
          columnName ++ "\"") } := by
  intro doc t c e err h
  have h3 : strat3 doc t c = Except.error err := by
    unfold strat3
    rw [h]
  have hfind : findTaskInColumn doc t c = { found := false, error := some err } := by
    unfold findTaskInColumn
    rw [strat1_unknown h, h3]
  have hf : (findTaskInColumn doc t c).found = false := by rw [hfind]
  unfold verifyTaskInColumn
  rw [verifyT_not_found doc t c e hf]

/-- C1 witness: the amended statement applied at the concrete column name
Archived. -/
theorem C1_unknown_column_not_found_witness :
    verifyTaskInColumn demoDoc "Implement user authentication" "Archived" [] =
      { found := false,
        error := some ("Task \"" ++ "Implement user authentication" ++
          "\" not found in column \"" ++ "Archived" ++ "\"") } :=
  C1_unknown_column_not_found demoDoc "Implement user authentication" "Archived" []
    ("Unknown column name: " ++ "Archived") rfl

/-- C2 counterexample: on c2doc the column-scoped strategy of
findTaskInColumn returns the element at path [0, 0, 0] with found=true even
though the Containment Classifier rejects that element for the column, so a
strategy does return a candidate that was not confirmed by the
classifier. -/
theorem C2_counterexample :
    (findTaskInColumn c2doc "Offline mode" "To Do").found = true ∧
    (findTaskInColumn c2doc "Offline mode" "To Do").card = some [0, 0, 0] ∧
    isElementInColumn c2doc [0, 0, 0] "To Do" = false := by
  refine ⟨by decide, by decide, by decide⟩

/-- C2 amended: the direct text/attribute strategy and the whole-page
strategy only ever return candidates confirmed by the Containment
Classifier (they stop at the first candidate passing text match and
containment); the column-scoped strategy, by contrast, returns its first
text match without consulting the classifier. -/
theorem C2_classifier_confirms_direct_and_page_strategies :
    ∀ (doc : Dom) (taskName columnName : String) (el : List Nat),
    strat1 doc taskName columnName = some el ∨ strat4 doc taskName columnName = some el →
    isElementInColumn doc el columnName = true := by
  intro doc t c el h
  have hok : candidateOk doc t c el = true := by
    rcases h with h1 | h4
    · obtain ⟨sel, _, hfind⟩ := exists_of_findSome?_some _ _ _ h1
      exact List.find?_some hfind
    · exact List.find?_some h4
  unfold candidateOk at hok
  simp only [Bool.and_eq_true] at hok
  exact hok.2

/-- C2 witness: the amended statement applied to the first strategy on
demoDoc, where it returns the board container at path [0]. -/
theorem C2_classifier_confirms_witness :
    isElementInColumn demoDoc [0] "To Do" = true :=
  C2_classifier_confirms_direct_and_page_strategies demoDoc
    "Implement user authentication" "To Do" [0] (Or.inl (by decide))

/-- C3: on c3doc the ancestor-text heuristic fails for the element at [1],
and the geometric comparison of the source (geometricCheck) holds between
the column heading's box and the element's box, so per the claim the
classifier should return true; but approaches 2 and 3 of the source
dereference the undefined identifier columnSelector and always throw, so
the classifier returns false.  This is a slip in the code: the comparison
written in approach 3 is unreachable. -/
theorem C3_geometric_heuristic_unreachable :
    elBBox c3doc [0] = some { x := 0, y := 0, width := 200, height := 30 } ∧
    elBBox c3doc [1] = some { x := 10, y := 50, width := 100, height := 20 } ∧
    geometricCheck { x := 0, y := 0, width := 200, height := 30 }
      { x := 10, y := 50, width := 100, height := 20 } = true ∧
    runApproaches [approach1 c3doc [1] "To Do", approach2, approach3] = false ∧
    approach2 = Except.error () ∧ approach3 = Except.error () ∧
    isElementInColumn c3doc [1] "To Do" = false := by
  refine ⟨by decide, by decide, by decide, by decide, rfl, rfl, by decide⟩

/-- C4: when the task is found and the expected tag list is non-empty, the
result's tagsMatch field is some true exactly when every expected tag is a
case-insensitive substring of some extracted tag; and the two concrete
comparisons of the claim hold of the comparison function. -/
theorem C4_tags_match_iff :
    ∀ (doc : Dom) (taskName columnName : String) (expectedTags : List String),
    (verifyTaskInColumn doc taskName columnName expectedTags).found = true →
    expectedTags ≠ [] →
    ((((verifyTaskInColumn doc taskName columnName expectedTags).tagsMatch = some true) ↔
      ∀ e ∈ expectedTags,
        ∃ a ∈ (verifyTaskInColumn doc taskName columnName expectedTags).actualTags.getD [],
          ciIncludes a e = true) ∧
     tagsMatchCheck ["Feature", "High Priority"] ["Feature", "High Priority"] = true ∧
     tagsMatchCheck ["Feature"] ["Bug"] = false) := by
  intro doc t c exp hfound hne
  refine ⟨?_, by decide, by decide⟩
  by_cases hf : (findTaskInColumn doc t c).found = true
  · have hne' : exp.isEmpty = false := by
      cases exp with
      | nil => exact absurd rfl hne
      | cons a l => rfl
    unfold verifyTaskInColumn
    rw [verifyT_found doc t c exp hf]
    simp [hne', tagsMatchCheck, List.all_eq_true, List.any_eq_true]
  · have hf' : (findTaskInColumn doc t c).found = false := by
      cases hb : (findTaskInColumn doc t c).found
      · rfl
      · exact absurd hb hf
    unfold verifyTaskInColumn at hfound
    rw [verifyT_not_found doc t c exp hf'] at hfound
    simp at hfound

/-- C4 witness: the iff applied on demoDoc for the found task Implement user
authentication with expected tags [Feature]. -/
theorem C4_tags_match_iff_witness :
    ((((verifyTaskInColumn demoDoc "Implement user authentication" "To Do"
          ["Feature"]).tagsMatch = some true) ↔
      ∀ e ∈ ["Feature"],
        ∃ a ∈ (verifyTaskInColumn demoDoc "Implement user authentication" "To Do"
            ["Feature"]).actualTags.getD [],
          ciIncludes a e = true) ∧
     tagsMatchCheck ["Feature", "High Priority"] ["Feature", "High Priority"] = true ∧
     tagsMatchCheck ["Feature"] ["Bug"] = false) :=
  C4_tags_match_iff demoDoc "Implement user authentication" "To Do" ["Feature"]
    (by decide) (by decide)

/-- C5 counterexample: on c5doc the card at [0, 1] (Fix navigation bug,
whose own subtree holds exactly the tag Bug) yields an extracted set that
contains Feature, the tag of the sibling card at [0, 2]: the parent search
is guarded by the parent's text containing the card's text (which always
holds for a real parent), not by task-name scoping, so sibling tags leak. -/
theorem C5_counterexample_sibling_tag :
    ("Feature" ∈ getTaskTags c5doc [0, 1]) ∧
    trimmedTexts c5doc [0, 1] = ["Bug"] ∧
    trimmedTexts c5doc [0, 2] = ["Feature"] := by
  refine ⟨by decide, by decide, by decide⟩

/-- C5 amended: every extracted tag is the trimmed text of an element inside
the candidate's subtree or inside its immediate parent's subtree — the
search never widens beyond the immediate parent — but tags of sibling tasks
that share the same immediate parent can be included. -/
theorem C5_tags_from_card_or_parent :
    ∀ (doc : Dom) (card : List Nat) (x : String),
    x ∈ getTaskTags doc card →
    ∃ el, (el ∈ descPaths doc card ∨ el ∈ descPaths doc card.dropLast) ∧
      x = trimStr (elText doc el) := by
  intro doc card x h
  exact mem_getTaskTags h

/-- C5 witness: the amended statement applied to the tag Bug of the card at
[0, 1] of c5doc. -/
theorem C5_tags_from_card_or_parent_witness :
    ∃ el, (el ∈ descPaths c5doc [0, 1] ∨ el ∈ descPaths c5doc ([0, 1] : List Nat).dropLast) ∧
      "Bug" = trimStr (elText c5doc el) :=
  C5_tags_from_card_or_parent c5doc [0, 1] "Bug" (by decide)

/-- C6: the VerificationResult invariant: when found is false the result
carries no tags collection and tagsMatch is not asserted true; when the
expected tag list is empty, tagsMatch is the uncomputed default true. -/
theorem C6_result_invariant :
    ∀ (doc : Dom) (taskName columnName : String) (expectedTags : List String),
    ((verifyTaskInColumn doc taskName columnName expectedTags).found = false →
      (verifyTaskInColumn doc taskName columnName expectedTags).actualTags = none ∧
      (verifyTaskInColumn doc taskName columnName expectedTags).tagsMatch ≠ some true) ∧
    (expectedTags = [] →
      (verifyTaskInColumn doc taskName columnName expectedTags).found = true →
      (verifyTaskInColumn doc taskName columnName expectedTags).tagsMatch = some true) := by
  intro doc t c exp
  constructor
  · intro hf
    by_cases hfind : (findTaskInColumn doc t c).found = true
    · unfold verifyTaskInColumn at hf
      rw [verifyT_found doc t c exp hfind] at hf
      simp at hf
    · have hfind' : (findTaskInColumn doc t c).found = false := by
        cases hb : (findTaskInColumn doc t c).found
        · rfl
        · exact absurd hb hfind
      unfold verifyTaskInColumn
      rw [verifyT_not_found doc t c exp hfind']
      exact ⟨rfl, by simp⟩
  · intro hexp hfound
    subst hexp
    by_cases hfind : (findTaskInColumn doc t c).found = true
    · unfold verifyTaskInColumn
      rw [verifyT_found doc t c [] hfind]
      rfl
    · have hfind' : (findTaskInColumn doc t c).found = false := by
        cases hb : (findTaskInColumn doc t c).found
        · rfl
        · exact absurd hb hfind
      unfold verifyTaskInColumn at hfound
      rw [verifyT_not_found doc t c [] hfind'] at hfound
      simp at hfound

/-- C6 witness: the invariant applied to a task absent from demoDoc and to a
found task verified with an empty expected list. -/
theorem C6_result_invariant_witness :
    ((verifyTaskInColumn demoDoc "Zzz" "To Do" ["Feature"]).actualTags = none ∧
     (verifyTaskInColumn demoDoc "Zzz" "To Do" ["Feature"]).tagsMatch ≠ some true) ∧
    (verifyTaskInColumn demoDoc "Implement user authentication" "To Do" []).tagsMatch =
      some true :=
  ⟨(C6_result_invariant demoDoc "Zzz" "To Do" ["Feature"]).1 (by decide),
   (C6_result_invariant demoDoc "Implement user authentication" "To Do" []).2 rfl (by decide)⟩

/-- C7: when the task is not found, verifyTaskInColumn returns immediately
with found=false and a diagnostic error string, and the instrumented trace
of getTaskTags invocations is empty: tag extraction is never attempted. -/
theorem C7_not_found_early_return :
    ∀ (doc : Dom) (taskName columnName : String) (expectedTags : List String),
    (findTaskInColumn doc taskName columnName).found = false →
    verifyTaskInColumnT doc taskName columnName expectedTags =
      ({ found := false,
         error := some ("Task \"" ++ taskName ++ "\" not found in column \"" ++
           columnName ++ "\"") }, []) := by
  intro doc t c e h
  exact verifyT_not_found doc t c e h

/-- C7 witness: the early return applied to a task absent from demoDoc. -/
theorem C7_not_found_early_return_witness :
    verifyTaskInColumnT demoDoc "Zzz" "To Do" [] =
      ({ found := false,
         error := some ("Task \"" ++ "Zzz" ++ "\" not found in column \"" ++
           "To Do" ++ "\"") }, []) :=
  C7_not_found_early_return demoDoc "Zzz" "To Do" [] (by decide)

/-- C8: the Containment Classifier is a total Bool-valued function; an
approach that throws is treated as answering no and the remaining
approaches are still tried (skipping an error leaves the loop's value
unchanged), and a thrown getColumnLocator is caught to false, so the
classifier never propagates an exception. -/
theorem C8_classifier_total :
    ∀ (doc : Dom) (el : List Nat) (columnName : String)
      (e : Unit) (rest : List (Except Unit Bool)),
    runApproaches (Except.error e :: rest) = runApproaches rest ∧
    isElementInColumn doc el columnName =
      (match getColumnLocator columnName with
       | Except.error _ => false
       | Except.ok _ => runApproaches (approaches doc el columnName)) := by
  intro doc el c e rest
  exact ⟨rfl, rfl⟩

/-- C9: tag extraction is deterministic over an unchanged document (two
calls agree), the returned collection has no duplicates, and every entry is
a trimmed element text. -/
theorem C9_tags_idempotent_nodup :
    ∀ (doc : Dom) (card : List Nat),
    getTaskTags doc card = getTaskTags doc card ∧
    (getTaskTags doc card).Nodup ∧
    ∀ x ∈ getTaskTags doc card, ∃ el, x = trimStr (elText doc el) := by
  intro doc card
  refine ⟨rfl, nodup_getTaskTags doc card, ?_⟩
  intro x hx
  obtain ⟨el, _, hel⟩ := mem_getTaskTags hx
  exact ⟨el, hel⟩

/-- C9 witness: the statement applied to the card at [0, 1] of c5doc and its
extracted tag Bug. -/
theorem C9_tags_idempotent_nodup_witness :
    (getTaskTags c5doc [0, 1] = getTaskTags c5doc [0, 1] ∧
     (getTaskTags c5doc [0, 1]).Nodup) ∧
    (∃ el, "Bug" = trimStr (elText c5doc el)) :=
  ⟨⟨(C9_tags_idempotent_nodup c5doc [0, 1]).1,
    (C9_tags_idempotent_nodup c5doc [0, 1]).2.1⟩,
   (C9_tags_idempotent_nodup c5doc [0, 1]).2.2 "Bug" (by decide)⟩

/-- C10: every task reported by getAllTasksInColumn, and hence by
getAllTasks, has one of the six hard-coded titles of knownTasks. -/
theorem C10_enumeration_titles_known :
    ∀ doc : Dom,
    (∀ (columnName : String) (t : TaskInfo),
      t ∈ getAllTasksInColumn doc columnName → t.title ∈ knownTasks) ∧
    (∀ t : TaskInfo, t ∈ getAllTasks doc → t.title ∈ knownTasks) := by
  intro doc
  constructor
  · intro c t ht
    exact getAllTasksInColumn_titles doc c t ht
  · intro t ht
    unfold getAllTasks at ht
    exact getAllTasks_titles_aux doc _ [] (fun u hu => absurd hu (List.not_mem_nil u)) t ht

/-- C10 witness: applied to the task found on c10doc in the To Do column. -/
theorem C10_enumeration_titles_known_witness :
    ({ title := "Fix navigation bug", tags := ["Fix navigation bug"], index := 0 } :
      TaskInfo).title ∈ knownTasks :=
  (C10_enumeration_titles_known c10doc).1 "To Do"
    { title := "Fix navigation bug", tags := ["Fix navigation bug"], index := 0 } (by decide)

end Kanban
